import Mathlib

/-!
Verification of `crates/net/network/src/protocol.rs` (RLPx sub-protocol
extension layer): protocol/connection handler traits, the type-erasing
wrapping layer, the sub-protocol registry, and message-ID masking.

Machine integers that appear here (message IDs, ports) are modelled as
`Nat`; the spec describes masking as pure arithmetic with out-of-range
IDs guarded before this layer, so no wraparound is modelled.
-/

namespace RlpxProtocol

/-- Remote peer identity (`reth_rpc_types::PeerId`, a 512-bit key),
modelled as an opaque number. -/
abbrev PeerId := Nat

/-- Remote socket address (`std::net::SocketAddr`): IP and port,
modelled as opaque numbers. -/
structure SocketAddr where
  ip : Nat
  port : Nat
deriving DecidableEq, Repr

/-- Connection direction (`reth_network_api::Direction`): incoming, or
outgoing towards a known peer. -/
inductive Direction where
  | incoming
  | outgoing (peerId : PeerId)
deriving DecidableEq, Repr

/-- Modelled from the spec: the capability descriptor
(`reth_eth_wire::protocol::Protocol`, not under src/) — a capability
name and version together with the number of messages in its ID range. -/
structure Protocol where
  name : String
  version : Nat
  messages : Nat
deriving DecidableEq, Repr

/-- Modelled from the spec: a shared capability entry of the Capability
Negotiation Record (`reth_eth_wire::capability::SharedCapability`, not
under src/) — a protocol descriptor plus its assigned base message-ID
offset; the ID-range length is the descriptor's message count. -/
structure SharedCapability where
  protocol : Protocol
  messageIdOffset : Nat
deriving DecidableEq, Repr

/-- Modelled from the spec: the Capability Negotiation Record
(`reth_eth_wire::capability::SharedCapabilities`, not under src/) — the
ordered table of capabilities both sides support. -/
abbrev SharedCapabilities := List SharedCapability

/-- Modelled from the spec: the handshake assigns each shared capability
a contiguous message-ID range, ranges laid out back to back starting at
`base` (the transport's reserved prefix is applied by a layer below). -/
def contiguousFrom (base : Nat) : SharedCapabilities → Bool
  | [] => true
  | c :: rest =>
    c.messageIdOffset == base && contiguousFrom (base + c.protocol.messages) rest

/-- Modelled from the spec: masking a single relative message ID into
the absolute shared ID space adds the capability's base offset. -/
def SharedCapability.mask_id (cap : SharedCapability) (id : Nat) : Nat :=
  cap.messageIdOffset + id

/-- Modelled from the spec: unmasking translates an absolute ID back to
the capability's zero-based numbering by subtracting the base offset. -/
def SharedCapability.unmask_id (cap : SharedCapability) (id : Nat) : Nat :=
  id - cap.messageIdOffset

/-- What to do when a protocol is not supported by the remote
(`OnNotSupported`). -/
inductive OnNotSupported where
  | KeepAlive
  | Disconnect
deriving DecidableEq, Repr

/-- The `#[default]` attribute on `OnNotSupported` marks `KeepAlive`. -/
instance : Inhabited OnNotSupported := ⟨OnNotSupported.KeepAlive⟩

/-- Modelled from the spec: `reth_eth_wire::multiplex::ProtocolStream`
(not under src/) — a per-capability framed sub-stream holding the shared
capability assigned to it; the underlying byte stream is opaque here. -/
structure ProtocolStream where
  cap : SharedCapability
  sid : Nat
deriving DecidableEq, Repr

/-- Modelled from the spec: `ProtocolStream::mask_msg_id` (in
`reth_eth_wire`, not under src/) rewrites an outgoing frame's leading ID
from the sub-protocol's zero-based numbering into the absolute shared ID
space by adding the capability's base offset; bytes are `Nat` here. -/
def ProtocolStream.mask_msg_id (s : ProtocolStream) (msg : List Nat) : List Nat :=
  match msg with
  | [] => []
  | id :: rest => s.cap.mask_id id :: rest

/-- Impl `ProxyProtocol for ProtocolStream`: `shared_capability` returns
the stream's capability (`self.cap()`). -/
def ProtocolStream.shared_capability (s : ProtocolStream) : SharedCapability :=
  s.cap

/-- Impl `ProxyProtocol for ProtocolStream`: `relative_mask_msg_id`
delegates to `self.mask_msg_id(msg)`. -/
def ProtocolStream.relative_mask_msg_id (s : ProtocolStream) (msg : List Nat) : List Nat :=
  s.mask_msg_id msg

/-- The `ConnectionHandler` trait: declares its protocol, and is
consumed by exactly one of `on_unsupported_by_peer` / `into_connection`;
the latter optionally yields a live connection (`Option<Pin<Box<...>>>`). -/
structure ConnectionHandler (Conn P2P : Type) where
  protocol : Protocol
  on_unsupported_by_peer : SharedCapabilities → Direction → PeerId → OnNotSupported
  into_connection : Direction → PeerId → P2P → Option Conn

/-- An erased live connection (`dyn Connection`), opaque to this layer. -/
structure DynConnection where
  tag : Nat
deriving DecidableEq, Repr

/-- Alias `DynConnectionHandler`: the `ConnectionHandler` with erased
connection type and `ProtocolStream` as the p2p connection. -/
abbrev DynConnectionHandler := ConnectionHandler DynConnection ProtocolStream

/-- The `ProtocolHandler` trait: per connection attempt, optionally
produces a connection handler (boxing elided). -/
structure ProtocolHandler (CH : Type) where
  on_incoming : SocketAddr → Option CH
  on_outgoing : SocketAddr → PeerId → Option CH

/-- Alias `DynProtocolHandler`: `ProtocolHandler` with erased connection
handler. -/
abbrev DynProtocolHandler := ProtocolHandler DynConnectionHandler

/-- Type `RlpxSubProtocol`: a wrapper around a boxed `DynProtocolHandler`. -/
structure RlpxSubProtocol where
  handler : DynProtocolHandler

/-- The `IntoRlpxSubProtocol` conversion trait. -/
class IntoRlpxSubProtocol (α : Type) where
  into_rlpx_sub_protocol : α → RlpxSubProtocol

/-- Blanket impl: any concrete protocol handler (with erased connection
handler type) is boxed into an `RlpxSubProtocol`. -/
instance : IntoRlpxSubProtocol DynProtocolHandler :=
  ⟨fun h => ⟨h⟩⟩

/-- Impl for `RlpxSubProtocol` itself: the identity conversion. -/
instance : IntoRlpxSubProtocol RlpxSubProtocol :=
  ⟨fun p => p⟩

/-- Type `RlpxSubProtocols`: the registry, an ordered sequence of type-erased
protocol handlers. -/
structure RlpxSubProtocols where
  protocols : List RlpxSubProtocol

/-- Derived `Default`: the fresh registry holds no protocols. -/
instance : Inhabited RlpxSubProtocols := ⟨⟨[]⟩⟩

/-- The connection handlers retained for one attempt
(`RlpxSubProtocolHandlers`). -/
structure RlpxSubProtocolHandlers where
  handlers : List DynConnectionHandler

/-- Method `RlpxSubProtocols::push`: converts and appends. -/
def RlpxSubProtocols.push {α : Type} [IntoRlpxSubProtocol α]
    (r : RlpxSubProtocols) (protocol : α) : RlpxSubProtocols :=
  ⟨r.protocols ++ [IntoRlpxSubProtocol.into_rlpx_sub_protocol protocol]⟩

/-- Method `RlpxSubProtocols::on_incoming`: `filter_map` of every registered
handler's `on_incoming` over the registration order. -/
def RlpxSubProtocols.on_incoming (r : RlpxSubProtocols)
    (socket_addr : SocketAddr) : RlpxSubProtocolHandlers :=
  ⟨r.protocols.filterMap (fun p => p.handler.on_incoming socket_addr)⟩

/-- Method `RlpxSubProtocols::on_outgoing`: `filter_map` of every registered
handler's `on_outgoing` over the registration order. -/
def RlpxSubProtocols.on_outgoing (r : RlpxSubProtocols)
    (socket_addr : SocketAddr) (peer_id : PeerId) : RlpxSubProtocolHandlers :=
  ⟨r.protocols.filterMap (fun p => p.handler.on_outgoing socket_addr peer_id)⟩

/-- State-passing form of `on_incoming`, faithful to the `&self`
receiver: the query yields its result alongside the registry it leaves
behind. -/
def RlpxSubProtocols.on_incomingS (r : RlpxSubProtocols)
    (socket_addr : SocketAddr) : RlpxSubProtocolHandlers × RlpxSubProtocols :=
  (r.on_incoming socket_addr, r)

/-- State-passing form of `on_outgoing`, faithful to the `&self`
receiver. -/
def RlpxSubProtocols.on_outgoingS (r : RlpxSubProtocols)
    (socket_addr : SocketAddr) (peer_id : PeerId) :
    RlpxSubProtocolHandlers × RlpxSubProtocols :=
  (r.on_outgoing socket_addr peer_id, r)


/-- Spec-side recursion for the incoming query, written from the spec's
words: invoke every registered handler's `on_incoming`, discard `None`
results, preserve registration order. -/
def specOnIncoming (ps : List RlpxSubProtocol) (a : SocketAddr) :
    List DynConnectionHandler :=
  match ps with
  | [] => []
  | p :: rest =>
    match p.handler.on_incoming a with
    | some ch => ch :: specOnIncoming rest a
    | none => specOnIncoming rest a

/-- Spec-side recursion for the outgoing query, symmetric. -/
def specOnOutgoing (ps : List RlpxSubProtocol) (a : SocketAddr) (pid : PeerId) :
    List DynConnectionHandler :=
  match ps with
  | [] => []
  | p :: rest =>
    match p.handler.on_outgoing a pid with
    | some ch => ch :: specOnOutgoing rest a pid
    | none => specOnOutgoing rest a pid

/-- Modelled from the spec: whether the Capability Negotiation Record
includes a given capability descriptor. -/
def SharedCapabilities.containsProtocol (caps : SharedCapabilities)
    (p : Protocol) : Bool :=
  caps.any (fun sc => sc.protocol == p)

/-- Outcome of resolving one retained connection handler. -/
inductive HandlerOutcome (Conn : Type) where
  | established (conn : Conn)
  | declined
  | unsupported (decision : OnNotSupported)
deriving DecidableEq, Repr

/-- Modelled from the spec: the transport's per-handler resolution step
after the handshake (the driver lives outside src/) — when the peer's
table shares the handler's capability the handler is consumed by
`into_connection` with the multiplexed sub-stream, otherwise by
`on_unsupported_by_peer`. -/
def resolveHandler {Conn P2P : Type} (h : ConnectionHandler Conn P2P)
    (caps : SharedCapabilities) (d : Direction) (p : PeerId) (conn : P2P) :
    HandlerOutcome Conn :=
  if SharedCapabilities.containsProtocol caps h.protocol then
    match h.into_connection d p conn with
    | some c => HandlerOutcome.established c
    | none => HandlerOutcome.declined
  else
    HandlerOutcome.unsupported (h.on_unsupported_by_peer caps d p)

/-- Concrete capability entry used for closed-instance theorems. -/
def sampleCap : SharedCapability := ⟨⟨"cap", 1, 4⟩, 16⟩

/-- Concrete sub-stream used for closed-instance theorems. -/
def sampleStream : ProtocolStream := ⟨sampleCap, 0⟩

/-- Concrete connection handler for capability `cap/1` that declines to
build a connection: `into_connection` always returns `none`, which the
trait's `Option` return type admits. -/
def nullConnectionHandler : DynConnectionHandler where
  protocol := ⟨"cap", 1, 4⟩
  on_unsupported_by_peer := fun _ _ _ => OnNotSupported.KeepAlive
  into_connection := fun _ _ _ => none

/-- Concrete connection handler for capability `cap/1` that builds a
connection tagged by the given sub-stream's identity. -/
def liveConnectionHandler : DynConnectionHandler where
  protocol := ⟨"cap", 1, 4⟩
  on_unsupported_by_peer := fun _ _ _ => OnNotSupported.Disconnect
  into_connection := fun _ _ s => some ⟨s.sid⟩

/-- Every member of a contiguously laid out table sits at or above the
base offset. -/
theorem contiguous_offset_le {base : Nat} {caps : SharedCapabilities}
    (hwf : contiguousFrom base caps = true) {c : SharedCapability}
    (hc : c ∈ caps) : base ≤ c.messageIdOffset := by
  induction caps generalizing base with
  | nil => cases hc
  | cons d rest ih =>
    simp only [contiguousFrom, Bool.and_eq_true, beq_iff_eq] at hwf
    rcases List.mem_cons.mp hc with h | h
    · subst h; omega
    · exact Nat.le_trans (Nat.le_add_right _ _) (ih hwf.2 h)

/-- In a contiguously laid out table, masking is injective across the
whole shared ID space: equal absolute IDs force equal entries and equal
relative IDs. -/
theorem contiguous_mask_id_inj {base : Nat} {caps : SharedCapabilities}
    (hwf : contiguousFrom base caps = true) {c1 c2 : SharedCapability}
    (h1 : c1 ∈ caps) (h2 : c2 ∈ caps) {id1 id2 : Nat}
    (hid1 : id1 < c1.protocol.messages) (hid2 : id2 < c2.protocol.messages)
    (heq : c1.mask_id id1 = c2.mask_id id2) : c1 = c2 ∧ id1 = id2 := by
  induction caps generalizing base with
  | nil => cases h1
  | cons d rest ih =>
    simp only [contiguousFrom, Bool.and_eq_true, beq_iff_eq] at hwf
    obtain ⟨hd, hrest⟩ := hwf
    simp only [SharedCapability.mask_id] at heq
    rcases List.mem_cons.mp h1 with h1' | h1' <;>
      rcases List.mem_cons.mp h2 with h2' | h2'
    · subst h1'; subst h2'
      exact ⟨rfl, by omega⟩
    · exfalso
      have hle := contiguous_offset_le hrest h2'
      subst h1'
      omega
    · exfalso
      have hle := contiguous_offset_le hrest h1'
      subst h2'
      omega
    · exact ih hrest h1' h2'

/-- Helper: the incoming `filter_map` equals the spec's recursion. -/
theorem filterMap_on_incoming_eq_spec (ps : List RlpxSubProtocol)
    (a : SocketAddr) :
    ps.filterMap (fun p => p.handler.on_incoming a) = specOnIncoming ps a := by
  induction ps with
  | nil => rfl
  | cons p rest ih =>
    simp only [List.filterMap_cons, specOnIncoming]
    cases p.handler.on_incoming a <;> simp [ih]

/-- Helper: the outgoing `filter_map` equals the spec's recursion. -/
theorem filterMap_on_outgoing_eq_spec (ps : List RlpxSubProtocol)
    (a : SocketAddr) (pid : PeerId) :
    ps.filterMap (fun p => p.handler.on_outgoing a pid) =
      specOnOutgoing ps a pid := by
  induction ps with
  | nil => rfl
  | cons p rest ih =>
    simp only [List.filterMap_cons, specOnOutgoing]
    cases p.handler.on_outgoing a pid <;> simp [ih]

/-- Claim C1: for every registry state and connection attempt,
`on_incoming` (and symmetrically `on_outgoing`) returns exactly the
connection handlers produced by the registered protocol handlers that
returned `Some`, in registration order; a handler returning `None`
contributes no element to the result. -/
theorem registry_queries_match_spec_order
    (r : RlpxSubProtocols) (a : SocketAddr) (pid : PeerId) :
    (r.on_incoming a).handlers = specOnIncoming r.protocols a ∧
    (r.on_outgoing a pid).handlers = specOnOutgoing r.protocols a pid :=
  ⟨filterMap_on_incoming_eq_spec r.protocols a,
   filterMap_on_outgoing_eq_spec r.protocols a pid⟩

/-- Claim C6: each registered handler's `on_incoming` / `on_outgoing` is
applied exactly once per attempt (the result is the once-per-handler
`map` with `None` results dropped), and the output length is at most the
number of registered handlers. -/
theorem registry_queries_once_per_handler
    (r : RlpxSubProtocols) (a : SocketAddr) (pid : PeerId) :
    (r.on_incoming a).handlers =
      (r.protocols.map (fun p => p.handler.on_incoming a)).reduceOption ∧
    (r.on_incoming a).handlers.length ≤ r.protocols.length ∧
    (r.on_outgoing a pid).handlers =
      (r.protocols.map (fun p => p.handler.on_outgoing a pid)).reduceOption ∧
    (r.on_outgoing a pid).handlers.length ≤ r.protocols.length := by
  refine ⟨?_, ?_, ?_, ?_⟩
  · simp [RlpxSubProtocols.on_incoming, List.reduceOption,
      List.filterMap_map, Function.comp]
  · exact List.length_filterMap_le _ _
  · simp [RlpxSubProtocols.on_outgoing, List.reduceOption,
      List.filterMap_map, Function.comp]
  · exact List.length_filterMap_le _ _

/-- Claim C7: the default value of `OnNotSupported` is `KeepAlive`. -/
theorem on_not_supported_default_keep_alive :
    (default : OnNotSupported) = OnNotSupported.KeepAlive := rfl

/-- Claim C5: converting an already-erased `RlpxSubProtocol` is the
identity, so erasure is idempotent and pushing an erased handler behaves
identically to a single push. -/
theorem into_rlpx_sub_protocol_idempotent
    (h : DynProtocolHandler) (p : RlpxSubProtocol) (r : RlpxSubProtocols) :
    IntoRlpxSubProtocol.into_rlpx_sub_protocol p = p ∧
    IntoRlpxSubProtocol.into_rlpx_sub_protocol
        (IntoRlpxSubProtocol.into_rlpx_sub_protocol h) =
      IntoRlpxSubProtocol.into_rlpx_sub_protocol h ∧
    r.push (IntoRlpxSubProtocol.into_rlpx_sub_protocol h) = r.push h :=
  ⟨rfl, rfl, rfl⟩

/-- Claim C8: erasure is loss-free — the erased protocol handler gives,
for every address and peer id, exactly the concrete handler's
`on_incoming` and `on_outgoing` results. -/
theorem erasure_loss_free (h : DynProtocolHandler) (a : SocketAddr)
    (pid : PeerId) :
    (IntoRlpxSubProtocol.into_rlpx_sub_protocol h).handler.on_incoming a =
      h.on_incoming a ∧
    (IntoRlpxSubProtocol.into_rlpx_sub_protocol h).handler.on_outgoing a pid =
      h.on_outgoing a pid :=
  ⟨rfl, rfl⟩

/-- Claim C9: the registry queries are read-only — in state-passing form
each query returns the registry unchanged while producing the pure query
result. -/
theorem registry_queries_read_only
    (r : RlpxSubProtocols) (a : SocketAddr) (pid : PeerId) :
    (r.on_incomingS a).2 = r ∧ (r.on_outgoingS a pid).2 = r ∧
    (r.on_incomingS a).1 = r.on_incoming a ∧
    (r.on_outgoingS a pid).1 = r.on_outgoing a pid :=
  ⟨rfl, rfl, rfl, rfl⟩

/-- Claim C10: the default registry holds no handlers and both queries
on it return the empty collection for every address and peer id. -/
theorem default_registry_empty (a : SocketAddr) (pid : PeerId) :
    (default : RlpxSubProtocols).protocols = [] ∧
    ((default : RlpxSubProtocols).on_incoming a).handlers = [] ∧
    ((default : RlpxSubProtocols).on_outgoing a pid).handlers = [] :=
  ⟨rfl, rfl, rfl⟩

/-- Claim C3: `relative_mask_msg_id` rewrites the message's leading ID
by adding the capability's base offset; within the declared range the
mask round-trips under unmasking, and masking is injective across the
full shared-capability ID space of a contiguously assigned table. -/
theorem relative_mask_round_trip_injective
    (base : Nat) (caps : SharedCapabilities) (c1 c2 : SharedCapability)
    (id1 id2 : Nat) (rest : List Nat) (sid : Nat)
    (hwf : contiguousFrom base caps = true)
    (h1 : c1 ∈ caps) (h2 : c2 ∈ caps)
    (hid1 : id1 < c1.protocol.messages) (hid2 : id2 < c2.protocol.messages) :
    (ProtocolStream.mk c1 sid).relative_mask_msg_id (id1 :: rest) =
      (c1.messageIdOffset + id1) :: rest ∧
    c1.unmask_id (c1.mask_id id1) = id1 ∧
    (c1.mask_id id1 = c2.mask_id id2 → c1 = c2 ∧ id1 = id2) := by
  refine ⟨rfl, ?_, fun heq => contiguous_mask_id_inj hwf h1 h2 hid1 hid2 heq⟩
  simp [SharedCapability.unmask_id, SharedCapability.mask_id]

/-- Witness for the masking claim over the concrete table assigning
`eth/68` 13 messages at offset 0 and `cap/1` 4 messages at offset 13:
relative id 2 of `cap/1` masks to absolute id 15 and unmasks back. -/
theorem relative_mask_round_trip_injective_witness :
    (ProtocolStream.mk ⟨⟨"cap", 1, 4⟩, 13⟩ 0).relative_mask_msg_id
        (2 :: [7]) = (13 + 2) :: [7] ∧
    SharedCapability.unmask_id ⟨⟨"cap", 1, 4⟩, 13⟩
        (SharedCapability.mask_id ⟨⟨"cap", 1, 4⟩, 13⟩ 2) = 2 ∧
    (SharedCapability.mask_id ⟨⟨"cap", 1, 4⟩, 13⟩ 2 =
        SharedCapability.mask_id ⟨⟨"cap", 1, 4⟩, 13⟩ 2 →
      (⟨⟨"cap", 1, 4⟩, 13⟩ : SharedCapability) = ⟨⟨"cap", 1, 4⟩, 13⟩ ∧
        2 = 2) :=
  relative_mask_round_trip_injective 0
    [⟨⟨"eth", 68, 13⟩, 0⟩, ⟨⟨"cap", 1, 4⟩, 13⟩]
    ⟨⟨"cap", 1, 4⟩, 13⟩ ⟨⟨"cap", 1, 4⟩, 13⟩ 2 2 [7] 0
    (by decide) (by decide) (by decide) (by decide) (by decide)

/-- Claim C4 as stated fails: `into_connection` returns an `Option`, and
this handler — whose capability `cap/1` the peer's table shares — yields
no live connection for the given sub-stream. -/
theorem into_connection_none_counterexample :
    SharedCapabilities.containsProtocol [sampleCap]
        nullConnectionHandler.protocol = true ∧
    nullConnectionHandler.into_connection Direction.incoming 0
        sampleStream = none ∧
    resolveHandler nullConnectionHandler [sampleCap] Direction.incoming 0
        sampleStream = HandlerOutcome.declined := by
  refine ⟨by decide, rfl, by decide⟩

/-- Claim C4 (amended): when the peer's table shares the handler's
capability and the handler yields a connection for the given sub-stream,
resolution consumes the handler and establishes exactly that
connection. -/
theorem into_connection_establishes {Conn P2P : Type}
    (h : ConnectionHandler Conn P2P) (caps : SharedCapabilities)
    (d : Direction) (pid : PeerId) (conn : P2P) (c : Conn)
    (hsupp : SharedCapabilities.containsProtocol caps h.protocol = true)
    (hc : h.into_connection d pid conn = some c) :
    resolveHandler h caps d pid conn = HandlerOutcome.established c := by
  simp [resolveHandler, hsupp, hc]

/-- Witness for the amended C4: the live handler on the sample stream
(with id 0) resolves to an established connection tagged 0. -/
theorem into_connection_establishes_witness :
    resolveHandler liveConnectionHandler [sampleCap] Direction.incoming 0
        sampleStream = HandlerOutcome.established ⟨0⟩ :=
  into_connection_establishes liveConnectionHandler [sampleCap]
    Direction.incoming 0 sampleStream ⟨0⟩ (by decide) rfl

end RlpxProtocol
